import Mathlib

/-!
Verification development for the collision core of the map-builder-3d
repository: shape model, shape lowering, TOI query, per-entity TOI
accumulation, pairwise resolution, and the frame driver.

Scalars of the source (f32) are modelled as rationals; vectors and rigid
transforms are records of rationals.  The geometric root-finding backend
(ncollide3d) is external to the repository and is modelled abstractly by
an oracle giving each query pair its exact earliest impact time.
-/

/-- A 3-component vector of scalars, modelling nc3::na::Vector3<f32>. -/
structure Vec3 where
  x : ℚ
  y : ℚ
  z : ℚ
deriving DecidableEq

/-- Componentwise vector addition. -/
def Vec3.add (a b : Vec3) : Vec3 :=
  { x := a.x + b.x, y := a.y + b.y, z := a.z + b.z }

/-- Scalar multiplication of a vector. -/
def Vec3.smul (t : ℚ) (v : Vec3) : Vec3 :=
  { x := t * v.x, y := t * v.y, z := t * v.z }

/-- The zero vector, modelling nc3::na::Vector3::zeros / nc3::na::zero. -/
def Vec3.zero : Vec3 :=
  { x := 0, y := 0, z := 0 }

/-- A rotation component, modelling nc3::na::UnitQuaternion<f32>.  The
collision core never alters rotations, so it is carried as opaque data. -/
structure Quat where
  w : ℚ
  x : ℚ
  y : ℚ
  z : ℚ
deriving DecidableEq

/-- The identity rotation. -/
def Quat.identity : Quat :=
  { w := 1, x := 0, y := 0, z := 0 }

/-- A rigid transform (translation + rotation), modelling
nc3::na::Isometry3<f32>. -/
structure Iso3 where
  translation : Vec3
  rotation : Quat
deriving DecidableEq

/-- The identity transform. -/
def Iso3.identity : Iso3 :=
  { translation := Vec3.zero, rotation := Quat.identity }

/-- Translating a rigid transform by a vector: the translation part moves,
the rotation part is untouched. -/
def Iso3.translate (i : Iso3) (v : Vec3) : Iso3 :=
  { i with translation := i.translation.add v }

/-- The closed tagged union of shape descriptors, from
src/src/collision.rs (enum ShapeType): ten variants, the last recursive.
Primitive payloads are carried as their defining numeric data. -/
inductive ShapeType where
  | Ball (radius : ℚ)
  | Capsule (halfHeight : ℚ) (radius : ℚ)
  | ConvexHull (points : List Vec3)
  | Cuboid (halfExtents : Vec3)
  | HeightField (heights : List ℚ) (numRows : Nat) (numCols : Nat)
  | Plane (normal : Vec3)
  | Segment (a : Vec3) (b : Vec3)
  | TriMesh (points : List Vec3) (indices : List (Nat × Nat × Nat))
  | Triangle (a : Vec3) (b : Vec3) (c : Vec3)
  | Compound (parts : List (Iso3 × ShapeType))

/-- The engine-native geometric handle produced by lowering a ShapeType,
modelling Arc<dyn nc3::shape::Shape<f32>> (one native solid per source
variant; a native compound holds its parts with their offsets). -/
inductive NativeShape where
  | ball (radius : ℚ)
  | capsule (halfHeight : ℚ) (radius : ℚ)
  | convexHull (points : List Vec3)
  | cuboid (halfExtents : Vec3)
  | heightField (heights : List ℚ) (numRows : Nat) (numCols : Nat)
  | plane (normal : Vec3)
  | segment (a : Vec3) (b : Vec3)
  | triMesh (points : List Vec3) (indices : List (Nat × Nat × Nat))
  | triangle (a : Vec3) (b : Vec3) (c : Vec3)
  | compound (parts : List (Iso3 × NativeShape))

/-- Lowering of the tagged union to the native handle, from
src/src/collision.rs lines 75-93 (fn nc3_shape_to_shape): each primitive
variant clones into its native solid; a Compound recursively lowers every
part, keeping that part's relative offset transform. -/
def nc3_shape_to_shape : ShapeType → NativeShape
  | .Ball r => .ball r
  | .Capsule h r => .capsule h r
  | .ConvexHull pts => .convexHull pts
  | .Cuboid he => .cuboid he
  | .HeightField hs r c => .heightField hs r c
  | .Plane n => .plane n
  | .Segment a b => .segment a b
  | .TriMesh pts idx => .triMesh pts idx
  | .Triangle a b c => .triangle a b c
  | .Compound parts =>
      .compound (parts.attach.map (fun p => (p.1.1, nc3_shape_to_shape p.1.2)))
termination_by s => sizeOf s
decreasing_by
  have hmem := p.2
  have h1 : sizeOf p.1 < sizeOf parts := List.sizeOf_lt_of_mem hmem
  have h2 : sizeOf p.1.2 < sizeOf p.1 := by
    obtain ⟨a, b⟩ := p.1
    simp only [Prod.mk.sizeOf_spec]
    omega
  have h3 : sizeOf (ShapeType.Compound parts) = 1 + sizeOf parts := by
    simp only [ShapeType.Compound.sizeOf_spec]
  omega

/-- Modelled from the spec: the shape-offset configuration type
PositionOffset is declared in the current collision.rs, which is absent
from this snapshot (only an older variant of that module is present);
every use in the sources passes PositionOffset::Default. -/
inductive PositionOffset where
  | Default
deriving DecidableEq

/-- Modelled from the spec: ShapeTypeWithHandle is declared in the current
collision.rs, absent from this snapshot.  Per the spec's data model, it is
the shared shape paired with its one-time-computed native handle
(the cached derived geometry), built once at construction. -/
structure ShapeTypeWithHandle where
  shape : ShapeType
  nc3_shape_handle : NativeShape

/-- Constructing the cached pair: the handle is derived from the shape by
the lowering function (handle is a pure function of the Shape). -/
def ShapeTypeWithHandle.new (s : ShapeType) : ShapeTypeWithHandle :=
  { shape := s, nc3_shape_handle := nc3_shape_to_shape s }

/-- A walking (moveable) object, from src/src/collision_walking.rs
lines 12-18 (struct WalkingObject). -/
structure WalkingObject where
  shape : ShapeTypeWithHandle
  nc3_position : Iso3
  nc3_velocity : Vec3
  nc3_toi : Option ℚ
  shape_offset : PositionOffset

/-- WalkingObject::new, from src/src/collision_walking.rs lines 33-46:
stores the given shape (with its freshly built handle), position and
velocity, sets the TOI accumulator to None, and stores the offset. -/
def WalkingObject.new (shape : ShapeType) (pos : Iso3) (vel : Vec3)
    (off : PositionOffset) : WalkingObject :=
  { shape := ShapeTypeWithHandle.new shape
    nc3_position := pos
    nc3_velocity := vel
    nc3_toi := none
    shape_offset := off }

/-- combine_toi, from src/src/collision_walking.rs lines 55-60: a None
accumulator becomes Some of the new TOI; otherwise the minimum of the
current and the new TOI. -/
def WalkingObject.combine_toi (o : WalkingObject) (toiOther : ℚ) :
    WalkingObject :=
  match o.nc3_toi with
  | none => { o with nc3_toi := some toiOther }
  | some toiCurrent => { o with nc3_toi := some (min toiCurrent toiOther) }

/-- time_of_impact, from src/src/collision_walking.rs lines 62-64. -/
def WalkingObject.time_of_impact (o : WalkingObject) : Option ℚ :=
  o.nc3_toi

/-- position, from src/src/collision_walking.rs lines 66-68. -/
def WalkingObject.position (o : WalkingObject) : Iso3 :=
  o.nc3_position

/-- velocity, from src/src/collision_walking.rs lines 70-72. -/
def WalkingObject.velocity (o : WalkingObject) : Vec3 :=
  o.nc3_velocity

/-- set_position, from src/src/collision_walking.rs lines 74-76. -/
def WalkingObject.set_position (o : WalkingObject) (p : Iso3) :
    WalkingObject :=
  { o with nc3_position := p }

/-- Modelled from the spec: the default update_position_for_frame
implementation of the MoveableObject trait lives in the current
collision.rs, absent from this snapshot; section 4.3 of the spec gives
advance(dt): effective_dt = min(dt, pending_time_of_impact if present
else dt); the pose is translated by velocity * effective_dt; the
accumulator is reset to None. -/
def WalkingObject.update_position_for_frame (o : WalkingObject) (dt : ℚ) :
    WalkingObject :=
  let effDt :=
    match o.nc3_toi with
    | none => dt
    | some t0 => min dt t0
  { o with
    nc3_position := o.nc3_position.translate (Vec3.smul effDt o.nc3_velocity)
    nc3_toi := none }

/-- An obstacle object, from src/src/collision_obstacle.rs lines 9-13
(struct ObstacleObject): shared shape, cached native handle, position. -/
structure ObstacleObject where
  shape : ShapeType
  nc3_shape_handle : NativeShape
  nc3_position : Iso3

/-- ObstacleObject::new, from src/src/collision_obstacle.rs lines 26-34:
clones the shape, builds the native handle once via the lowering
function, and stores the position. -/
def ObstacleObject.new (shape : ShapeType) (pos : Iso3) : ObstacleObject :=
  { shape := shape
    nc3_shape_handle := nc3_shape_to_shape shape
    nc3_position := pos }

/-- nc3_velocity of an ObstacleObject, from src/src/collision_obstacle.rs
lines 56-58: always the zero vector. -/
def ObstacleObject.nc3_velocity (_o : ObstacleObject) : Vec3 :=
  Vec3.zero

/-- The contact description returned by a TOI query, modelling
nc3::query::TOI<f32>: the time of impact plus contact witnesses and
normals (only the toi field is consumed by this repository). -/
structure TOI where
  toi : ℚ
  witness1 : Vec3
  witness2 : Vec3
  normal1 : Vec3
  normal2 : Vec3
deriving DecidableEq

/-- One pairwise query's inputs: pose, velocity and native shape handle of
each side, as passed to nc3::query::time_of_impact. -/
structure QueryInput where
  pos1 : Iso3
  vel1 : Vec3
  shape1 : NativeShape
  pos2 : Iso3
  vel2 : Vec3
  shape2 : NativeShape

/-- An abstract geometry backend: for each pair of swept shapes it gives
the exact earliest contact (with its data), or none when the swept shapes
never touch.  The root-finding that computes it (ncollide3d) is external
to this repository. -/
def Oracle : Type :=
  QueryInput → Option TOI

/-- Modelled from the spec: the backend contract of section 4.2 for
nc3::query::time_of_impact with a max_time horizon — return the earliest
contact time when it lies within [0, max_time]; any impact strictly after
max_time is treated identically to no impact; clamping never invents an
earlier time, it only suppresses later ones. -/
def nc3TimeOfImpact (exact : Oracle) (q : QueryInput) (maxTime : ℚ) :
    Option TOI :=
  match exact q with
  | some c => if c.toi ≤ maxTime then some c else none
  | none => none

/-- Modelled from the spec: get_collision_with(other, max_toi) of the
Collide trait lives in the current collision.rs, absent from this
snapshot (its callers and tests are under src).  Per section 4.2 it runs
the backend TOI query on the two objects' poses, velocities and cached
shape handles with max_toi as the horizon, returning an optional contact.
This version is for a walking object against another walking object. -/
def WalkingObject.get_collision_with (exact : Oracle) (o1 o2 : WalkingObject)
    (maxToi : ℚ) : Option TOI :=
  nc3TimeOfImpact exact
    { pos1 := o1.nc3_position
      vel1 := o1.nc3_velocity
      shape1 := o1.shape.nc3_shape_handle
      pos2 := o2.nc3_position
      vel2 := o2.nc3_velocity
      shape2 := o2.shape.nc3_shape_handle }
    maxToi

/-- Modelled from the spec: the walking-versus-obstacle instantiation of
get_collision_with(other, max_toi); the obstacle side contributes its
pose, its cached handle and its always-zero velocity. -/
def WalkingObject.get_collision_with_obstacle (exact : Oracle)
    (o1 : WalkingObject) (o2 : ObstacleObject) (maxToi : ℚ) : Option TOI :=
  nc3TimeOfImpact exact
    { pos1 := o1.nc3_position
      vel1 := o1.nc3_velocity
      shape1 := o1.shape.nc3_shape_handle
      pos2 := o2.nc3_position
      vel2 := o2.nc3_velocity
      shape2 := o2.nc3_shape_handle }
    maxToi

/-- Collide<WalkingObject>::collide_with for WalkingObject, from
src/src/collision_walking.rs lines 110-113: the detected TOI is combined,
unmodified, into both participants' accumulators. -/
def collideWithWalking (obj1 obj2 : WalkingObject) (collision : TOI) :
    WalkingObject × WalkingObject :=
  (obj1.combine_toi collision.toi, obj2.combine_toi collision.toi)

/-- Collide<ObstacleObject>::collide_with for WalkingObject, from
src/src/collision_obstacle.rs lines 62-64: the detected TOI is combined
into the walking side only; the obstacle parameter is ignored. -/
def collideWithObstacle (this : WalkingObject) (other : ObstacleObject)
    (collision : TOI) : WalkingObject × ObstacleObject :=
  (this.combine_toi collision.toi, other)

/-- The world a frame acts on: the walking entities and the obstacle
entities the entity store iterates over. -/
structure World where
  walkers : List WalkingObject
  obstacles : List ObstacleObject

/-- The inner loop of process_collisions_walking_obstaicals for one
walking object, from src/src/collision_system.rs lines 16-27: for each
obstacle, query the TOI with the frame's time delta as the horizon and,
when a collision is present, apply the Moving-by-Obstacle resolution
(which touches only the walking side). -/
def walkerVsObstacles (exact : Oracle) (dt : ℚ) (obstacles : List ObstacleObject)
    (w : WalkingObject) : WalkingObject :=
  obstacles.foldl
    (fun obj1 obj2 =>
      match WalkingObject.get_collision_with_obstacle exact obj1 obj2 dt with
      | some collision => (collideWithObstacle obj1 obj2 collision).1
      | none => obj1)
    w

/-- process_collisions_walking_obstaicals, from src/src/collision_system.rs
lines 10-28: every (walking, obstacle) pair is queried with horizon equal
to the frame's time delta; obstacles are never modified by the applied
resolution. -/
def process_collisions_walking_obstaicals (exact : Oracle) (dt : ℚ)
    (world : World) : World :=
  { world with
    walkers := world.walkers.map (walkerVsObstacles exact dt world.obstacles) }

/-- One walking object against all later walking objects, mirroring the
inner steps of iter_combinations_mut in process_collisions_walking
(src/src/collision_system.rs lines 40-49): each detected collision is
resolved into both participants, so the head accumulates and the tail is
rebuilt with its updated members, in order. -/
def collideOneWalker (exact : Oracle) (dt : ℚ) (w : WalkingObject)
    (rest : List WalkingObject) : WalkingObject × List WalkingObject :=
  rest.foldl
    (fun acc obj2 =>
      match WalkingObject.get_collision_with exact acc.1 obj2 dt with
      | some collision =>
          let p := collideWithWalking acc.1 obj2 collision
          (p.1, acc.2 ++ [p.2])
      | none => (acc.1, acc.2 ++ [obj2]))
    (w, [])

/-- Helper: collideOneWalker keeps the number of later walkers. -/
theorem collideOneWalker_snd_length (exact : Oracle) (dt : ℚ)
    (w : WalkingObject) (rest : List WalkingObject) :
    (collideOneWalker exact dt w rest).2.length = rest.length := by
  unfold collideOneWalker
  suffices h : ∀ (l : List WalkingObject) (a : WalkingObject)
      (acc : List WalkingObject),
      (l.foldl
        (fun acc obj2 =>
          match WalkingObject.get_collision_with exact acc.1 obj2 dt with
          | some collision =>
              let p := collideWithWalking acc.1 obj2 collision
              (p.1, acc.2 ++ [p.2])
          | none => (acc.1, acc.2 ++ [obj2]))
        (a, acc)).2.length = acc.length + l.length by
    simpa using h rest w []
  intro l
  induction l with
  | nil => intro a acc; simp
  | cons x xs ih =>
      intro a acc
      simp only [List.foldl_cons]
      cases WalkingObject.get_collision_with exact a x dt with
      | none => rw [ih]; simp; omega
      | some c => rw [ih]; simp; omega

/-- process_collisions_walking, from src/src/collision_system.rs
lines 34-50: every unordered pair of walking objects, enumerated as
ordered combinations (0,1), (0,2), ..., (1,2), ..., is queried with
horizon equal to the frame's time delta and resolved symmetrically. -/
def process_collisions_walking_list (exact : Oracle) (dt : ℚ) :
    List WalkingObject → List WalkingObject
  | [] => []
  | w :: rest =>
      let p := collideOneWalker exact dt w rest
      p.1 :: process_collisions_walking_list exact dt p.2
termination_by l => l.length
decreasing_by
  simp only [List.length_cons]
  rw [collideOneWalker_snd_length]
  omega

/-- process_collisions_walking lifted to the world. -/
def process_collisions_walking (exact : Oracle) (dt : ℚ) (world : World) :
    World :=
  { world with
    walkers := process_collisions_walking_list exact dt world.walkers }

/-- update_positions_walking, from src/src/collision_system.rs
lines 55-63: every walking object is advanced once by
update_position_for_frame with the frame's time delta. -/
def update_positions_walking (dt : ℚ) (world : World) : World :=
  { world with
    walkers := world.walkers.map (fun o => o.update_position_for_frame dt) }

/-- system_walking_default, from src/src/collision_system.rs lines 66-74:
first all walking-versus-obstacle pairs, then all walking-versus-walking
pairs, then — after both resolution passes have completed — the single
position-update pass. -/
def system_walking_default (exact : Oracle) (dt : ℚ) (world : World) : World :=
  update_positions_walking dt
    (process_collisions_walking exact dt
      (process_collisions_walking_obstaicals exact dt world))

/-- The possible outcomes of running a Rust expression that may abort:
either a value, or a panic unwinding out of the call. -/
inductive RunOutcome (α : Type) where
  | value (a : α)
  | panicked
deriving DecidableEq

/-- A fallible geometry backend as ncollide3d exposes it:
nc3::query::time_of_impact returns Result<Option<TOI>, Unsupported>, the
error case arising when the dispatcher does not support the shape pair. -/
def FallibleOracle : Type :=
  QueryInput → Except Unit (Option TOI)

/-- get_collition_with, from src/src/collision.rs lines 184-197 (the
Collide trait of the collision module present in this snapshot): it runs
the backend query with horizon f32::MAX and calls .unwrap() on the
returned Result, so a backend error (unsupported shape pair) aborts by
panicking instead of degrading to no contact. -/
def get_collition_with (backend : FallibleOracle) (q : QueryInput) :
    RunOutcome (Option TOI) :=
  match backend q with
  | .ok r => .value r
  | .error _ => .panicked

/-- The accumulator value produced by a combine step: the new TOI when the
accumulator was empty, otherwise the minimum with the current value. -/
def toiMin (a : Option ℚ) (t : ℚ) : ℚ :=
  match a with
  | none => t
  | some c => min c t

/-- A concrete walking object used to instantiate theorems with
hypotheses: unit ball at the origin, unit velocity along x. -/
def sampleWalker : WalkingObject :=
  WalkingObject.new (ShapeType.Ball 1) Iso3.identity
    { x := 1, y := 0, z := 0 } PositionOffset.Default

theorem combine_toi_nc3_toi (o : WalkingObject) (t : ℚ) :
    (o.combine_toi t).nc3_toi = some (toiMin o.nc3_toi t) := by
  cases h : o.nc3_toi <;> simp [WalkingObject.combine_toi, toiMin, h]

theorem combine_toi_nc3_position (o : WalkingObject) (t : ℚ) :
    (o.combine_toi t).nc3_position = o.nc3_position := by
  cases h : o.nc3_toi <;> simp [WalkingObject.combine_toi, h]

theorem combine_toi_nc3_velocity (o : WalkingObject) (t : ℚ) :
    (o.combine_toi t).nc3_velocity = o.nc3_velocity := by
  cases h : o.nc3_toi <;> simp [WalkingObject.combine_toi, h]

theorem combine_toi_shape (o : WalkingObject) (t : ℚ) :
    (o.combine_toi t).shape = o.shape := by
  cases h : o.nc3_toi <;> simp [WalkingObject.combine_toi, h]

theorem combine_toi_shape_offset (o : WalkingObject) (t : ℚ) :
    (o.combine_toi t).shape_offset = o.shape_offset := by
  cases h : o.nc3_toi <;> simp [WalkingObject.combine_toi, h]

theorem combine_toi_comm (o : WalkingObject) (a b : ℚ) :
    (o.combine_toi a).combine_toi b = (o.combine_toi b).combine_toi a := by
  cases h : o.nc3_toi with
  | none => simp [WalkingObject.combine_toi, h, min_comm a b]
  | some c => simp [WalkingObject.combine_toi, h, min_right_comm c a b]

theorem foldCombine_some (l : List ℚ) :
    ∀ (o : WalkingObject) (m : ℚ), o.nc3_toi = some m →
      (l.foldl WalkingObject.combine_toi o).nc3_toi = some (l.foldl min m) := by
  induction l with
  | nil => intro o m h; simpa using h
  | cons t ts ih =>
      intro o m h
      simp only [List.foldl_cons]
      apply ih
      rw [combine_toi_nc3_toi, h]
      rfl

theorem foldl_min_mem (l : List ℚ) :
    ∀ (a : ℚ), l.foldl min a = a ∨ l.foldl min a ∈ l := by
  induction l with
  | nil => intro a; left; rfl
  | cons x xs ih =>
      intro a
      simp only [List.foldl_cons, List.mem_cons]
      rcases ih (min a x) with h | h
      · rcases min_choice a x with hc | hc
        · left; rw [h, hc]
        · right; left; rw [h, hc]
      · right; right; exact h

theorem foldl_min_le (l : List ℚ) :
    ∀ (a : ℚ), l.foldl min a ≤ a ∧ ∀ x ∈ l, l.foldl min a ≤ x := by
  induction l with
  | nil => intro a; exact ⟨le_refl a, by simp⟩
  | cons x xs ih =>
      intro a
      simp only [List.foldl_cons, List.mem_cons]
      refine ⟨le_trans (ih (min a x)).1 (min_le_left a x), ?_⟩
      intro y hy
      rcases hy with rfl | hy
      · exact le_trans (ih (min a y)).1 (min_le_right a y)
      · exact (ih (min a x)).2 y hy


theorem walkerVsObstacles_proj {α : Type} (g : WalkingObject → α)
    (hg : ∀ (o : WalkingObject) (t : ℚ), g (o.combine_toi t) = g o)
    (exact : Oracle) (dt : ℚ) (obstacles : List ObstacleObject)
    (w : WalkingObject) :
    g (walkerVsObstacles exact dt obstacles w) = g w := by
  unfold walkerVsObstacles
  induction obstacles generalizing w with
  | nil => rfl
  | cons o os ih =>
      simp only [List.foldl_cons]
      rw [ih]
      cases WalkingObject.get_collision_with_obstacle exact w o dt with
      | none => rfl
      | some c => exact hg w c.toi

theorem collideOneWalker_proj {α : Type} (g : WalkingObject → α)
    (hg : ∀ (o : WalkingObject) (t : ℚ), g (o.combine_toi t) = g o)
    (exact : Oracle) (dt : ℚ) (w : WalkingObject)
    (rest : List WalkingObject) :
    g (collideOneWalker exact dt w rest).1 = g w ∧
      (collideOneWalker exact dt w rest).2.map g = rest.map g := by
  unfold collideOneWalker
  suffices h : ∀ (l : List WalkingObject) (a : WalkingObject)
      (acc : List WalkingObject),
      g ((l.foldl
        (fun acc obj2 =>
          match WalkingObject.get_collision_with exact acc.1 obj2 dt with
          | some collision =>
              let p := collideWithWalking acc.1 obj2 collision
              (p.1, acc.2 ++ [p.2])
          | none => (acc.1, acc.2 ++ [obj2]))
        (a, acc))).1 = g a ∧
      ((l.foldl
        (fun acc obj2 =>
          match WalkingObject.get_collision_with exact acc.1 obj2 dt with
          | some collision =>
              let p := collideWithWalking acc.1 obj2 collision
              (p.1, acc.2 ++ [p.2])
          | none => (acc.1, acc.2 ++ [obj2]))
        (a, acc))).2.map g = acc.map g ++ l.map g by
    simpa using h rest w []
  intro l
  induction l with
  | nil => intro a acc; simp
  | cons x xs ih =>
      intro a acc
      simp only [List.foldl_cons, List.map_cons]
      cases WalkingObject.get_collision_with exact a x dt with
      | none =>
          rcases ih a (acc ++ [x]) with ⟨h1, h2⟩
          exact ⟨h1, h2.trans (by simp)⟩
      | some c =>
          rcases ih (a.combine_toi c.toi) (acc ++ [x.combine_toi c.toi]) with
            ⟨h1, h2⟩
          rw [hg] at h1
          exact ⟨h1, h2.trans (by simp [hg])⟩

theorem process_collisions_walking_list_proj {α : Type}
    (g : WalkingObject → α)
    (hg : ∀ (o : WalkingObject) (t : ℚ), g (o.combine_toi t) = g o)
    (exact : Oracle) (dt : ℚ) :
    ∀ (l : List WalkingObject),
      (process_collisions_walking_list exact dt l).map g = l.map g := by
  suffices h : ∀ (n : ℕ) (l : List WalkingObject), l.length = n →
      (process_collisions_walking_list exact dt l).map g = l.map g by
    intro l
    exact h l.length l rfl
  intro n
  induction n with
  | zero =>
      intro l hl
      rw [List.length_eq_zero] at hl
      subst hl
      simp [process_collisions_walking_list]
  | succ n ih =>
      intro l hl
      cases l with
      | nil => simp at hl
      | cons w rest =>
          rw [process_collisions_walking_list]
          simp only [List.map_cons]
          rcases collideOneWalker_proj g hg exact dt w rest with ⟨h1, h2⟩
          have hlen : (collideOneWalker exact dt w rest).2.length = n := by
            rw [collideOneWalker_snd_length]
            simpa using hl
          rw [h1, ih _ hlen, h2]

/-- Claim C1: for every moveable entity and frame delta dt, the
advancement step translates the pose by velocity * min(dt, t0) when the
pending accumulator holds t0 and by velocity * dt when it is None, leaves
every other field unchanged, and resets the accumulator to None. -/
theorem advance_moves_by_min_and_resets :
    ∀ (o : WalkingObject) (dt : ℚ),
      (∀ t0 : ℚ, o.nc3_toi = some t0 →
        o.update_position_for_frame dt =
          { o with
            nc3_position :=
              o.nc3_position.translate (Vec3.smul (min dt t0) o.nc3_velocity)
            nc3_toi := none }) ∧
      (o.nc3_toi = none →
        o.update_position_for_frame dt =
          { o with
            nc3_position :=
              o.nc3_position.translate (Vec3.smul dt o.nc3_velocity)
            nc3_toi := none }) := by
  intro o dt
  constructor
  · intro t0 h
    simp [WalkingObject.update_position_for_frame, h]
  · intro h
    simp [WalkingObject.update_position_for_frame, h]

/-- Witness for claim C1 at a concrete walker, frame delta 5 and pending
accumulator 2. -/
theorem advance_moves_by_min_and_resets_witness :
    (sampleWalker.combine_toi 2).update_position_for_frame 5 =
      { sampleWalker.combine_toi 2 with
        nc3_position :=
          (sampleWalker.combine_toi 2).nc3_position.translate
            (Vec3.smul (min 5 2) (sampleWalker.combine_toi 2).nc3_velocity)
        nc3_toi := none } ∧
    sampleWalker.update_position_for_frame 5 =
      { sampleWalker with
        nc3_position :=
          sampleWalker.nc3_position.translate
            (Vec3.smul 5 sampleWalker.nc3_velocity)
        nc3_toi := none } :=
  ⟨(advance_moves_by_min_and_resets (sampleWalker.combine_toi 2) 5).1 2 rfl,
   (advance_moves_by_min_and_resets sampleWalker 5).2 rfl⟩

/-- Claim C10: a freshly constructed WalkingObject has an empty pending
accumulator and stores exactly the given position and velocity, so with
no resolution step it advances by the full frame delta. -/
theorem new_walker_unclamped_first_frame :
    ∀ (sh : ShapeType) (pos : Iso3) (vel : Vec3) (off : PositionOffset)
      (dt : ℚ),
      (WalkingObject.new sh pos vel off).time_of_impact = none ∧
      (WalkingObject.new sh pos vel off).nc3_position = pos ∧
      (WalkingObject.new sh pos vel off).nc3_velocity = vel ∧
      ((WalkingObject.new sh pos vel off).update_position_for_frame
        dt).nc3_position = pos.translate (Vec3.smul dt vel) := by
  intro sh pos vel off dt
  exact ⟨rfl, rfl, rfl, rfl⟩

/-- Claim C2: combine_toi sets an empty accumulator to the new TOI and
otherwise takes the minimum; folding any multiset of TOI values into an
object is order-independent, and from an empty accumulator the result is
exactly the minimum of the values. -/
theorem combine_toi_is_running_minimum :
    (∀ (o : WalkingObject) (t : ℚ), o.nc3_toi = none →
      (o.combine_toi t).nc3_toi = some t) ∧
    (∀ (o : WalkingObject) (c t : ℚ), o.nc3_toi = some c →
      (o.combine_toi t).nc3_toi = some (min c t)) ∧
    (∀ (l l' : List ℚ), l.Perm l' → ∀ (o : WalkingObject),
      l.foldl WalkingObject.combine_toi o =
        l'.foldl WalkingObject.combine_toi o) ∧
    (∀ (o : WalkingObject) (l : List ℚ), o.nc3_toi = none → l ≠ [] →
      ∃ m, (l.foldl WalkingObject.combine_toi o).nc3_toi = some m ∧
        m ∈ l ∧ ∀ x ∈ l, m ≤ x) := by
  refine ⟨?_, ?_, ?_, ?_⟩
  · intro o t h
    rw [combine_toi_nc3_toi, h]
    rfl
  · intro o c t h
    rw [combine_toi_nc3_toi, h]
    rfl
  · intro l l' hp o
    exact hp.foldl_eq' (fun x _hx y _hy z => combine_toi_comm z x y) o
  · intro o l h hne
    cases l with
    | nil => exact absurd rfl hne
    | cons t ts =>
        have h1 : (o.combine_toi t).nc3_toi = some t := by
          rw [combine_toi_nc3_toi, h]
          rfl
        have h2 := foldCombine_some ts (o.combine_toi t) t h1
        refine ⟨ts.foldl min t, by simpa [List.foldl_cons] using h2, ?_, ?_⟩
        · rcases foldl_min_mem ts t with hm | hm
          · rw [hm]; exact List.mem_cons_self t ts
          · exact List.mem_cons_of_mem t hm
        · intro x hx
          rcases List.mem_cons.mp hx with rfl | hx
          · exact (foldl_min_le ts x).1
          · exact (foldl_min_le ts t).2 x hx

/-- Witness for claim C2 at a concrete walker and the TOI values 3, 1. -/
theorem combine_toi_is_running_minimum_witness :
    (sampleWalker.combine_toi 3).nc3_toi = some 3 ∧
    ((sampleWalker.combine_toi 3).combine_toi 1).nc3_toi =
      some (min 3 1) ∧
    [3, 1].foldl WalkingObject.combine_toi sampleWalker =
      [1, 3].foldl WalkingObject.combine_toi sampleWalker ∧
    (∃ m, ([3, 1].foldl WalkingObject.combine_toi sampleWalker).nc3_toi =
      some m ∧ m ∈ [3, 1] ∧ ∀ x ∈ [3, 1], m ≤ x) :=
  ⟨combine_toi_is_running_minimum.1 sampleWalker 3 rfl,
   combine_toi_is_running_minimum.2.1 (sampleWalker.combine_toi 3) 3 1 rfl,
   combine_toi_is_running_minimum.2.2.1 [3, 1] [1, 3]
     (List.Perm.swap 1 3 []) sampleWalker,
   combine_toi_is_running_minimum.2.2.2 sampleWalker [3, 1] rfl
     (List.cons_ne_nil 3 [1])⟩

/-- Claim C6: the Moving-by-Moving resolution combines the same
unmodified TOI value into both participants' accumulators (symmetric
rule, no speed-ratio rescaling on either side). -/
theorem moving_moving_resolution_symmetric :
    ∀ (o1 o2 : WalkingObject) (c : TOI),
      (collideWithWalking o1 o2 c).1.nc3_toi =
        some (toiMin o1.nc3_toi c.toi) ∧
      (collideWithWalking o1 o2 c).2.nc3_toi =
        some (toiMin o2.nc3_toi c.toi) ∧
      (collideWithWalking o1 o2 c).1 = o1.combine_toi c.toi ∧
      (collideWithWalking o1 o2 c).2 = o2.combine_toi c.toi :=
  fun o1 o2 c =>
    ⟨combine_toi_nc3_toi o1 c.toi, combine_toi_nc3_toi o2 c.toi, rfl, rfl⟩

/-- Claim C7: the Moving-by-Obstacle resolution combines the TOI only
into the moveable side's accumulator; every field of the obstacle is left
unchanged. -/
theorem moving_obstacle_resolution_one_sided :
    ∀ (o1 : WalkingObject) (o2 : ObstacleObject) (c : TOI),
      (collideWithObstacle o1 o2 c).1.nc3_toi =
        some (toiMin o1.nc3_toi c.toi) ∧
      (collideWithObstacle o1 o2 c).1 = o1.combine_toi c.toi ∧
      (collideWithObstacle o1 o2 c).2 = o2 ∧
      (collideWithObstacle o1 o2 c).2.shape = o2.shape ∧
      (collideWithObstacle o1 o2 c).2.nc3_shape_handle =
        o2.nc3_shape_handle ∧
      (collideWithObstacle o1 o2 c).2.nc3_position = o2.nc3_position :=
  fun o1 o2 c =>
    ⟨combine_toi_nc3_toi o1 c.toi, rfl, rfl, rfl, rfl, rfl⟩

/-- Claim C9: the lowering of a shape to its native handle is total over
all ten variants of the closed union with no error case; on a Compound it
recursively materializes a native handle for every nested part together
with that part's relative offset transform, for arbitrarily deep nesting
(the recursion is proved terminating by the definition itself). -/
theorem shape_lowering_total_and_recursive :
    (∀ r, nc3_shape_to_shape (ShapeType.Ball r) = NativeShape.ball r) ∧
    (∀ h r, nc3_shape_to_shape (ShapeType.Capsule h r) =
      NativeShape.capsule h r) ∧
    (∀ pts, nc3_shape_to_shape (ShapeType.ConvexHull pts) =
      NativeShape.convexHull pts) ∧
    (∀ he, nc3_shape_to_shape (ShapeType.Cuboid he) =
      NativeShape.cuboid he) ∧
    (∀ hs r c, nc3_shape_to_shape (ShapeType.HeightField hs r c) =
      NativeShape.heightField hs r c) ∧
    (∀ n, nc3_shape_to_shape (ShapeType.Plane n) = NativeShape.plane n) ∧
    (∀ a b, nc3_shape_to_shape (ShapeType.Segment a b) =
      NativeShape.segment a b) ∧
    (∀ pts idx, nc3_shape_to_shape (ShapeType.TriMesh pts idx) =
      NativeShape.triMesh pts idx) ∧
    (∀ a b c, nc3_shape_to_shape (ShapeType.Triangle a b c) =
      NativeShape.triangle a b c) ∧
    (∀ parts, nc3_shape_to_shape (ShapeType.Compound parts) =
      NativeShape.compound
        (parts.map (fun p => (p.1, nc3_shape_to_shape p.2)))) := by
  refine ⟨fun r => by simp [nc3_shape_to_shape],
    fun h r => by simp [nc3_shape_to_shape],
    fun pts => by simp [nc3_shape_to_shape],
    fun he => by simp [nc3_shape_to_shape],
    fun hs r c => by simp [nc3_shape_to_shape],
    fun n => by simp [nc3_shape_to_shape],
    fun a b => by simp [nc3_shape_to_shape],
    fun pts idx => by simp [nc3_shape_to_shape],
    fun a b c => by simp [nc3_shape_to_shape],
    fun parts => ?_⟩
  simp only [nc3_shape_to_shape]
  congr 1
  exact List.attach_map_val parts (fun a => (a.1, nc3_shape_to_shape a.2))

/-- Claim C5: in one frame, system_walking_default advances positions
only in the final pass, strictly after both resolution passes have
completed: the resolution passes leave every walker's position and
velocity at its frame-start value, and each walker's final position is
computed by the single advancement pass from the fully combined
post-resolution accumulator. -/
theorem advancement_strictly_after_resolution :
    ∀ (exact : Oracle) (dt : ℚ) (world : World),
      system_walking_default exact dt world =
        update_positions_walking dt
          (process_collisions_walking exact dt
            (process_collisions_walking_obstaicals exact dt world)) ∧
      (process_collisions_walking exact dt
        (process_collisions_walking_obstaicals exact dt
          world)).walkers.map WalkingObject.position =
        world.walkers.map WalkingObject.position ∧
      (process_collisions_walking exact dt
        (process_collisions_walking_obstaicals exact dt
          world)).walkers.map WalkingObject.velocity =
        world.walkers.map WalkingObject.velocity ∧
      (system_walking_default exact dt world).walkers =
        (process_collisions_walking exact dt
          (process_collisions_walking_obstaicals exact dt
            world)).walkers.map
          (fun o => o.update_position_for_frame dt) := by
  intro exact dt world
  have hpos : ∀ (o : WalkingObject) (t : ℚ),
      (o.combine_toi t).position = o.position :=
    fun o t => combine_toi_nc3_position o t
  have hvel : ∀ (o : WalkingObject) (t : ℚ),
      (o.combine_toi t).velocity = o.velocity :=
    fun o t => combine_toi_nc3_velocity o t
  refine ⟨rfl, ?_, ?_, rfl⟩
  · show (process_collisions_walking_list exact dt
        ((process_collisions_walking_obstaicals exact dt
          world).walkers)).map WalkingObject.position = _
    rw [process_collisions_walking_list_proj WalkingObject.position hpos]
    show (world.walkers.map
        (walkerVsObstacles exact dt world.obstacles)).map
        WalkingObject.position = _
    rw [List.map_map]
    apply List.map_congr_left
    intro o _ho
    exact walkerVsObstacles_proj WalkingObject.position hpos exact dt
      world.obstacles o
  · show (process_collisions_walking_list exact dt
        ((process_collisions_walking_obstaicals exact dt
          world).walkers)).map WalkingObject.velocity = _
    rw [process_collisions_walking_list_proj WalkingObject.velocity hvel]
    show (world.walkers.map
        (walkerVsObstacles exact dt world.obstacles)).map
        WalkingObject.velocity = _
    rw [List.map_map]
    apply List.map_congr_left
    intro o _ho
    exact walkerVsObstacles_proj WalkingObject.velocity hvel exact dt
      world.obstacles o

/-- Claim C8: the TOI query is a pure function and every resolution step
is aggregate-only: combining a TOI and running either resolution pass
never changes any object's position or velocity, and the obstacles are
untouched; positions change only in the advancement pass. -/
theorem query_and_combine_read_only :
    (∀ (o : WalkingObject) (t : ℚ),
      (o.combine_toi t).nc3_position = o.nc3_position ∧
      (o.combine_toi t).nc3_velocity = o.nc3_velocity ∧
      (o.combine_toi t).shape = o.shape) ∧
    (∀ (o1 o2 : WalkingObject) (c : TOI),
      (collideWithWalking o1 o2 c).1.nc3_position = o1.nc3_position ∧
      (collideWithWalking o1 o2 c).1.nc3_velocity = o1.nc3_velocity ∧
      (collideWithWalking o1 o2 c).2.nc3_position = o2.nc3_position ∧
      (collideWithWalking o1 o2 c).2.nc3_velocity = o2.nc3_velocity) ∧
    (∀ (o1 : WalkingObject) (o2 : ObstacleObject) (c : TOI),
      (collideWithObstacle o1 o2 c).1.nc3_position = o1.nc3_position ∧
      (collideWithObstacle o1 o2 c).1.nc3_velocity = o1.nc3_velocity ∧
      (collideWithObstacle o1 o2 c).2 = o2) ∧
    (∀ (exact : Oracle) (dt : ℚ) (world : World),
      (process_collisions_walking_obstaicals exact dt world).obstacles =
        world.obstacles ∧
      (process_collisions_walking exact dt world).obstacles =
        world.obstacles ∧
      (process_collisions_walking exact dt
        (process_collisions_walking_obstaicals exact dt world)).walkers.map
          (fun o => (o.nc3_position, o.nc3_velocity)) =
        world.walkers.map (fun o => (o.nc3_position, o.nc3_velocity))) := by
  have hg : ∀ (o : WalkingObject) (t : ℚ),
      ((o.combine_toi t).nc3_position, (o.combine_toi t).nc3_velocity) =
        (o.nc3_position, o.nc3_velocity) := by
    intro o t
    rw [combine_toi_nc3_position, combine_toi_nc3_velocity]
  refine ⟨?_, ?_, ?_, ?_⟩
  · intro o t
    exact ⟨combine_toi_nc3_position o t, combine_toi_nc3_velocity o t,
      combine_toi_shape o t⟩
  · intro o1 o2 c
    exact ⟨combine_toi_nc3_position o1 c.toi,
      combine_toi_nc3_velocity o1 c.toi,
      combine_toi_nc3_position o2 c.toi,
      combine_toi_nc3_velocity o2 c.toi⟩
  · intro o1 o2 c
    exact ⟨combine_toi_nc3_position o1 c.toi,
      combine_toi_nc3_velocity o1 c.toi, rfl⟩
  · intro exact dt world
    refine ⟨rfl, rfl, ?_⟩
    show (process_collisions_walking_list exact dt
        ((process_collisions_walking_obstaicals exact dt
          world).walkers)).map
        (fun o => (o.nc3_position, o.nc3_velocity)) = _
    rw [process_collisions_walking_list_proj
      (fun o => (o.nc3_position, o.nc3_velocity)) hg]
    show (world.walkers.map
        (walkerVsObstacles exact dt world.obstacles)).map
        (fun o => (o.nc3_position, o.nc3_velocity)) = _
    rw [List.map_map]
    apply List.map_congr_left
    intro o _ho
    exact walkerVsObstacles_proj
      (fun o => (o.nc3_position, o.nc3_velocity)) hg exact dt
      world.obstacles o

theorem nc3TimeOfImpact_some_elim (exact : Oracle) (q : QueryInput)
    (maxTime : ℚ) (c : TOI)
    (h : nc3TimeOfImpact exact q maxTime = some c) :
    exact q = some c ∧ c.toi ≤ maxTime := by
  cases hq : exact q with
  | none => simp [nc3TimeOfImpact, hq] at h
  | some c0 =>
      simp only [nc3TimeOfImpact, hq] at h
      by_cases hc : c0.toi ≤ maxTime
      · rw [if_pos hc] at h
        obtain rfl := Option.some.inj h
        exact ⟨rfl, hc⟩
      · rw [if_neg hc] at h
        exact absurd h (by simp)

theorem nc3TimeOfImpact_of_exact (exact : Oracle) (q : QueryInput)
    (maxTime : ℚ) (c : TOI) (h : exact q = some c) :
    nc3TimeOfImpact exact q maxTime =
      if c.toi ≤ maxTime then some c else none := by
  unfold nc3TimeOfImpact
  rw [h]

/-- A concrete query input used to instantiate theorems with hypotheses:
two coincident planes at rest. -/
def sampleQuery : QueryInput :=
  { pos1 := Iso3.identity
    vel1 := Vec3.zero
    shape1 := NativeShape.plane { x := 0, y := 0, z := 1 }
    pos2 := Iso3.identity
    vel2 := Vec3.zero
    shape2 := NativeShape.plane { x := 0, y := 0, z := 1 } }

/-- A concrete contact at time 5 used to instantiate theorems. -/
def sampleTOI : TOI :=
  { toi := 5
    witness1 := Vec3.zero
    witness2 := Vec3.zero
    normal1 := Vec3.zero
    normal2 := Vec3.zero }

/-- A concrete backend oracle whose every pair first touches at time 5. -/
def sampleOracle : Oracle :=
  fun _ => some sampleTOI

/-- Claim C3: the TOI query treats any impact strictly after the horizon
as no contact; it is monotone in the horizon (a time within a smaller
horizon is returned unchanged there, a time beyond it becomes no
contact); and the frame driver queries every pair with the frame's own
time delta as the horizon. -/
theorem toi_query_horizon_cutoff_and_monotone :
    (∀ (exact : Oracle) (q : QueryInput) (maxTime : ℚ) (c : TOI),
      nc3TimeOfImpact exact q maxTime = some c → c.toi ≤ maxTime) ∧
    (∀ (exact : Oracle) (q : QueryInput) (maxTime : ℚ) (c : TOI),
      exact q = some c → maxTime < c.toi →
      nc3TimeOfImpact exact q maxTime = none) ∧
    (∀ (exact : Oracle) (o1 o2 : WalkingObject) (T1 T2 : ℚ) (c : TOI),
      WalkingObject.get_collision_with exact o1 o2 T2 = some c →
      c.toi ≤ T1 → T1 ≤ T2 →
      WalkingObject.get_collision_with exact o1 o2 T1 = some c) ∧
    (∀ (exact : Oracle) (o1 o2 : WalkingObject) (T1 T2 : ℚ) (c : TOI),
      WalkingObject.get_collision_with exact o1 o2 T2 = some c →
      T1 < c.toi →
      WalkingObject.get_collision_with exact o1 o2 T1 = none) ∧
    (∀ (exact : Oracle) (dt : ℚ) (world : World),
      process_collisions_walking_obstaicals exact dt world =
        { world with
            walkers :=
              world.walkers.map
                (walkerVsObstacles exact dt world.obstacles) }) := by
  refine ⟨?_, ?_, ?_, ?_, ?_⟩
  · intro exact q maxTime c h
    exact (nc3TimeOfImpact_some_elim exact q maxTime c h).2
  · intro exact q maxTime c hq hlt
    rw [nc3TimeOfImpact_of_exact exact q maxTime c hq,
      if_neg (not_le.mpr hlt)]
  · intro exact o1 o2 T1 T2 c h h1 _h2
    unfold WalkingObject.get_collision_with at h ⊢
    obtain ⟨hq, _⟩ := nc3TimeOfImpact_some_elim exact _ T2 c h
    rw [nc3TimeOfImpact_of_exact exact _ T1 c hq, if_pos h1]
  · intro exact o1 o2 T1 T2 c h hlt
    unfold WalkingObject.get_collision_with at h ⊢
    obtain ⟨hq, _⟩ := nc3TimeOfImpact_some_elim exact _ T2 c h
    rw [nc3TimeOfImpact_of_exact exact _ T1 c hq,
      if_neg (not_le.mpr hlt)]
  · intro exact dt world
    rfl

/-- Witness for claim C3 at a concrete oracle (first contact at time 5)
and horizons 10, 6, 4 and 3. -/
theorem toi_query_horizon_witness :
    (WalkingObject.get_collision_with sampleOracle sampleWalker
        sampleWalker 10 = some sampleTOI ∧ sampleTOI.toi ≤ 10) ∧
    nc3TimeOfImpact sampleOracle sampleQuery 4 = none ∧
    WalkingObject.get_collision_with sampleOracle sampleWalker
      sampleWalker 6 = some sampleTOI ∧
    WalkingObject.get_collision_with sampleOracle sampleWalker
      sampleWalker 3 = none := by
  have h10 : WalkingObject.get_collision_with sampleOracle sampleWalker
      sampleWalker 10 = some sampleTOI := by
    norm_num [WalkingObject.get_collision_with, nc3TimeOfImpact,
      sampleOracle, sampleTOI]
  refine ⟨⟨h10, ?_⟩, ?_, ?_, ?_⟩
  · exact toi_query_horizon_cutoff_and_monotone.1 sampleOracle _ 10
      sampleTOI h10
  · exact toi_query_horizon_cutoff_and_monotone.2.1 sampleOracle
      sampleQuery 4 sampleTOI rfl (by norm_num [sampleTOI])
  · exact toi_query_horizon_cutoff_and_monotone.2.2.1 sampleOracle
      sampleWalker sampleWalker 6 10 sampleTOI h10
      (by norm_num [sampleTOI]) (by norm_num)
  · exact toi_query_horizon_cutoff_and_monotone.2.2.2.1 sampleOracle
      sampleWalker sampleWalker 3 10 sampleTOI h10 (by norm_num [sampleTOI])

/-- Claim C4: evaluation of the pairwise TOI query of the collision
module present under src (get_collition_with) at a backend failure.  The
function calls .unwrap() on the backend's Result, so a backend that
reports the shape pair as unsupported (as the dispatcher does for the
two-plane query) makes the call abort by panicking instead of degrading
to no contact; when the backend succeeds with no contact, the call
returns no contact.  This contradicts the claim, whose no-panic policy
the surrounding code and spec clearly intend. -/
theorem get_collition_with_aborts_on_backend_failure :
    get_collition_with (fun _ => Except.error ()) sampleQuery =
      RunOutcome.panicked ∧
    get_collition_with (fun _ => Except.ok none) sampleQuery =
      RunOutcome.value none :=
  ⟨rfl, rfl⟩
